import Mathlib

/-!
Shallow embedding of the feed persistence module of collie
(src/src-tauri/src/models/feeds.rs).

The module manages a single SQLite table of feeds through five CRUD
operations.  The store is modelled as a list of raw rows together with the
next auto-increment id; each operation is the state transformer denoted by
the parametrised statement the source builds with sea-query and executes
with rusqlite.  Timestamps are opaque instants, modelled as integers; the
clock reading taken by create (Utc::now) is passed as an explicit argument.
The status column is kept as raw text in the row model, so that externally
mutated values are representable.  Operations that can only fail through
the store itself are modelled as total; the outcome type distinguishes a
typed store error (rusqlite::Error, returned through Result) from a crash
(a Rust panic, raised by unwrap), because they reach the caller through
different channels.
-/

namespace Collie

/-- FeedStatus, the closed status enumeration (feeds.rs lines 15-19). -/
inductive FeedStatus
| Subscribed
| Unsubscribed
deriving DecidableEq, Repr

/-- Render: the Display implementation for FeedStatus (feeds.rs lines 21-28). -/
def FeedStatus.render : FeedStatus → String
| .Subscribed => "subscribed"
| .Unsubscribed => "unsubscribed"

/-- Parse: the FromStr implementation for FeedStatus (feeds.rs lines 30-40).
The source matches the exact strings and returns Err on anything else,
modelled as none. -/
def FeedStatus.fromStr (x : String) : Option FeedStatus :=
if x = "subscribed" then some FeedStatus.Subscribed
else if x = "unsubscribed" then some FeedStatus.Unsubscribed
else none

/-- The serde Serialize derive on FeedStatus (feeds.rs line 15) carries no
rename attribute, so a unit variant serialises as its Rust variant name. -/
def FeedStatus.serdeName : FeedStatus → String
| .Subscribed => "Subscribed"
| .Unsubscribed => "Unsubscribed"

/-- The Feed entity (feeds.rs lines 42-49). -/
structure Feed where
  id : Int
  title : String
  link : String
  status : FeedStatus
  checked_at : Int
deriving DecidableEq, Repr

/-- The serde Serialize derive on Feed (feeds.rs line 42) emits each field
under its attribute name, in declaration order; values are rendered as text
in this model, which is enough to reason about field names and about the
status encoding. -/
def Feed.serialize (f : Feed) : List (String × String) :=
[("id", toString f.id), ("title", f.title), ("link", f.link),
 ("status", f.status.serdeName), ("checked_at", toString f.checked_at)]

/-- A stored row of the feeds table.  The status column is raw text, exactly
as SQLite holds it, so a row mutated from outside the module can carry a
string outside the two known spellings. -/
structure Row where
  id : Int
  title : String
  link : String
  status : String
  checked_at : Int
deriving DecidableEq, Repr

/-- The row to Feed mapper, impl From for Feed (feeds.rs lines 51-61).
The source calls FeedStatus::from_str(...).unwrap(); none models the panic
that unwrap raises when the stored status does not parse. -/
def Feed.fromRow? (r : Row) : Option Feed :=
(FeedStatus.fromStr r.status).map fun st =>
  { id := r.id, title := r.title, link := r.link, status := st,
    checked_at := r.checked_at }

/-- FeedToCreate (feeds.rs lines 63-67). -/
structure FeedToCreate where
  title : String
  link : String
deriving DecidableEq, Repr

/-- FeedToUpdate (feeds.rs lines 69-76); absent optional fields mean leave
unchanged. -/
structure FeedToUpdate where
  id : Int
  title : Option String
  link : Option String
  status : Option FeedStatus
  checked_at : Option Int
deriving DecidableEq, Repr

/-- The columns of the feeds table, the Feeds iden enum consumed from
super::database. -/
inductive Col
| id
| title
| link
| status
| checked_at
deriving DecidableEq, BEq, Repr

/-- One SET assignment of the update statement, as pushed into vals by
update (feeds.rs lines 138-150).  A status assignment stores the rendered
text, because the source pushes status.to_string(). -/
inductive Assign
| title (s : String)
| link (s : String)
| status (s : String)
| checked_at (t : Int)
deriving DecidableEq, Repr

/-- The column an assignment writes. -/
def Assign.col : Assign → Col
| .title _ => Col.title
| .link _ => Col.link
| .status _ => Col.status
| .checked_at _ => Col.checked_at

/-- Applying one SET assignment to a row. -/
def applyAssign (r : Row) : Assign → Row
| .title s => { r with title := s }
| .link s => { r with link := s }
| .status s => { r with status := s }
| .checked_at t => { r with checked_at := t }

/-- The vals list built by update (feeds.rs lines 138-150): one push per
present optional field, in source order title, link, status, checked_at. -/
def buildUpdateAssigns (arg : FeedToUpdate) : List Assign :=
(match arg.title with
 | some t => [Assign.title t]
 | none => []) ++
(match arg.link with
 | some l => [Assign.link l]
 | none => []) ++
(match arg.status with
 | some s => [Assign.status s.render]
 | none => []) ++
(match arg.checked_at with
 | some c => [Assign.checked_at c]
 | none => [])

/-- The insert statement columns built by create (feeds.rs line 81):
Title, Link, CheckedAt.  Status and Id are not written by the statement. -/
def createCols : List Col := [Col.title, Col.link, Col.checked_at]

/-- Modelled from the spec: the feeds table and its schema live in
super::database (models/database.rs), which is not part of the sources at
hand.  Per the schema table of the spec, id is an auto-increment primary
key assigned by the store and the status column defaults to the literal
text subscribed.  The store state is the row list plus the next id. -/
structure DB where
  rows : List Row
  nextId : Int
deriving DecidableEq, Repr

/-- The outcome of one operation. ok is the Ok value of the returned
Result; storeErr is a typed rusqlite error returned through Result; crash
is a Rust panic (unwrap), which does not reach the caller as a Result. -/
inductive Outcome (α : Type)
| ok (a : α)
| storeErr
| crash
deriving DecidableEq, Repr

/-- create (feeds.rs lines 78-90): inserts one row carrying title, link and
the clock reading now; the store fills id from the auto-increment counter
and status from the schema default.  rusqlite execute returns the count of
affected rows, 1 for a single-row insert. -/
def create (db : DB) (arg : FeedToCreate) (now : Int) : Outcome Nat × DB :=
(Outcome.ok 1,
 { rows := db.rows ++ [{ id := db.nextId, title := arg.title, link := arg.link,
                         status := "subscribed", checked_at := now }],
   nextId := db.nextId + 1 })

/-- The row iteration of read_all: rows.map(|x| x.unwrap()).collect(), with
Feed::from applied to each row.  The first row whose status does not parse
panics, modelled as crash. -/
def readRows : List Row → Outcome (List Feed)
| [] => Outcome.ok []
| r :: rest =>
  match Feed.fromRow? r with
  | none => Outcome.crash
  | some f =>
    match readRows rest with
    | Outcome.ok fs => Outcome.ok (f :: fs)
    | Outcome.storeErr => Outcome.storeErr
    | Outcome.crash => Outcome.crash

/-- read_all (feeds.rs lines 92-111): a full unordered projection of the
table, each row mapped through Feed::from. -/
def read_all (db : DB) : Outcome (List Feed) :=
readRows db.rows

/-- read (feeds.rs lines 113-133): SELECT ... WHERE id = i LIMIT 1, then
rows.next() mapped through Feed::from.  The first stored row matching the
id is returned; no matching row yields Ok(None); a matching row whose
status does not parse panics inside Feed::from, modelled as crash. -/
def read (db : DB) (i : Int) : Outcome (Option Feed) :=
match db.rows.find? (fun r => r.id == i) with
| none => Outcome.ok none
| some r =>
  match Feed.fromRow? r with
  | some f => Outcome.ok (some f)
  | none => Outcome.crash

/-- update (feeds.rs lines 135-159): builds the vals list from the present
optional fields and executes UPDATE feeds SET vals WHERE id = arg.id.
sea-query emits the SET keyword unconditionally, and the SQL grammar has no
UPDATE with an empty assignment list, so an empty vals yields a statement
the store rejects: a typed store error.  Otherwise every row matching the
id receives every assignment and execute returns the count of matched
rows.  The statement never touches the auto-increment counter. -/
def update (db : DB) (arg : FeedToUpdate) : Outcome Nat × DB :=
let vals := buildUpdateAssigns arg
if vals = [] then (Outcome.storeErr, db)
else
  (Outcome.ok (db.rows.countP fun r => r.id == arg.id),
   { rows := db.rows.map fun r =>
       if r.id == arg.id then vals.foldl applyAssign r else r,
     nextId := db.nextId })

/-- delete (feeds.rs lines 161-170): DELETE FROM feeds WHERE id = i;
execute returns the count of removed rows. -/
def delete (db : DB) (i : Int) : Outcome Nat × DB :=
(Outcome.ok (db.rows.countP fun r => r.id == i),
 { rows := db.rows.filter fun r => !(r.id == i), nextId := db.nextId })

/-! Helper lemmas shared by the claim theorems. -/

/-- A single SET assignment never changes the id column of a row. -/
theorem applyAssign_id (r : Row) (a : Assign) : (applyAssign r a).id = r.id := by
cases a <;> rfl

/-- A whole SET list never changes the id column of a row. -/
theorem foldl_applyAssign_id (vals : List Assign) (r : Row) :
    (vals.foldl applyAssign r).id = r.id := by
induction vals generalizing r with
| nil => rfl
| cons a l ih => rw [List.foldl_cons, ih, applyAssign_id]

/-- With pairwise distinct ids, the first row found for an id is the row
holding that id. -/
theorem find_id_unique {l : List Row} {r : Row} {i : Int}
    (hnd : (l.map Row.id).Nodup) (hmem : r ∈ l) (hid : r.id = i) :
    l.find? (fun x => x.id == i) = some r := by
induction l with
| nil => cases hmem
| cons a l ih =>
  rw [List.map_cons, List.nodup_cons] at hnd
  rcases List.mem_cons.mp hmem with h | h
  · subst h
    exact List.find?_cons_of_pos l (by simp [hid])
  · have hne : ¬(a.id == i) = true := by
      intro hab
      apply hnd.1
      rw [eq_of_beq hab, ← hid]
      exact List.mem_map_of_mem Row.id h
    rw [List.find?_cons_of_neg l hne]
    exact ih hnd.2 h

/-- The sequential row mapping panics as soon as some row fails to map. -/
theorem readRows_crash {l : List Row} {r : Row} (hmem : r ∈ l)
    (hbad : Feed.fromRow? r = none) : readRows l = Outcome.crash := by
induction l with
| nil => cases hmem
| cons a l ih =>
  rcases List.mem_cons.mp hmem with h | h
  · subst h
    rw [readRows, hbad]
  · rw [readRows]
    match ha : Feed.fromRow? a with
    | none => rfl
    | some f => rw [ih h]

/-- The number of rows matching an id equals the multiset count of that id
among the stored ids. -/
theorem countP_id_eq_count (l : List Row) (i : Int) :
    (l.countP fun r => r.id == i) = (l.map Row.id).count i := by
rw [List.count_eq_countP, List.countP_map]
rfl

/-! Claim theorems. -/

/-- C4: Parse is a left inverse of Render on every status value, and Parse
rejects every string other than the two exact lowercase spellings,
including uppercase and whitespace-padded variants. -/
theorem status_round_trip :
    (∀ s : FeedStatus, FeedStatus.fromStr s.render = some s) ∧
    FeedStatus.fromStr "SUBSCRIBED" = none ∧
    FeedStatus.fromStr " subscribed " = none ∧
    (∀ t : String, t ≠ "subscribed" → t ≠ "unsubscribed" →
      FeedStatus.fromStr t = none) := by
refine ⟨?_, by decide, by decide, ?_⟩
· intro s
  cases s <;> rfl
· intro t h1 h2
  simp [FeedStatus.fromStr, h1, h2]

/-- C4 witness: the round-trip theorem applied at the concrete rejected
input Subscribed, the capitalised spelling. -/
theorem status_round_trip_witness :
    ("Subscribed" : String) ≠ "subscribed" ∧
    ("Subscribed" : String) ≠ "unsubscribed" ∧
    FeedStatus.fromStr "Subscribed" = none :=
⟨by decide, by decide,
 status_round_trip.2.2.2 "Subscribed" (by decide) (by decide)⟩

/-- C3 counterexample: the serialised status of a Feed is the capitalised
serde variant name, not the lowercase Render form, so the claim that the
serialised status is always the lowercase string fails on this Feed. -/
theorem feed_serialize_status_case_cex :
    List.lookup "status"
      (Feed.serialize ⟨1, "t", "l", FeedStatus.Subscribed, 0⟩) =
      some "Subscribed" ∧
    ("Subscribed" : String) ≠ "subscribed" ∧
    ("Subscribed" : String) ≠ "unsubscribed" :=
⟨rfl, by decide, by decide⟩

/-- C3 amended: the serialised field names match the attribute names id,
title, link, status, checked_at exactly and in order, but the status field
serialises through the serde variant name, so it is the capitalised string
Subscribed or Unsubscribed, not the lowercase Render form. -/
theorem feed_serialize_fields (f : Feed) :
    f.serialize.map Prod.fst = ["id", "title", "link", "status", "checked_at"] ∧
    (List.lookup "status" f.serialize = some "Subscribed" ∨
     List.lookup "status" f.serialize = some "Unsubscribed") := by
obtain ⟨i, t, l, st, c⟩ := f
cases st
· exact ⟨rfl, Or.inl rfl⟩
· exact ⟨rfl, Or.inr rfl⟩

/-- C1: evaluating update at a FeedToUpdate with every optional field
absent, against a store whose row the id matches.  The built statement has
an empty SET list, which the store rejects, so the call returns a typed
store error, not a success with 0 affected rows. -/
theorem update_empty_fields_store_error :
    update ⟨[⟨1, "t", "l", "subscribed", 0⟩], 2⟩ ⟨1, none, none, none, none⟩ =
      (Outcome.storeErr, ⟨[⟨1, "t", "l", "subscribed", 0⟩], 2⟩) ∧
    (Outcome.storeErr : Outcome Nat) ≠ Outcome.ok 0 :=
⟨rfl, by decide⟩

/-- C5: the built update statement assigns exactly the columns whose
optional fields are present, and a title-only update rewrites the title of
every row matching the id while leaving its link, status, checked_at, all
other rows, and the auto-increment counter unchanged. -/
theorem update_partial_fields :
    (∀ arg : FeedToUpdate, (buildUpdateAssigns arg).map Assign.col =
      (match arg.title with | some _ => [Col.title] | none => []) ++
      (match arg.link with | some _ => [Col.link] | none => []) ++
      (match arg.status with | some _ => [Col.status] | none => []) ++
      (match arg.checked_at with | some _ => [Col.checked_at] | none => [])) ∧
    (∀ (db : DB) (i : Int) (t' : String),
      update db ⟨i, some t', none, none, none⟩ =
        (Outcome.ok (db.rows.countP fun r => r.id == i),
         { rows := db.rows.map fun r =>
             if r.id == i then { r with title := t' } else r,
           nextId := db.nextId })) := by
constructor
· intro arg
  obtain ⟨i, t, l, s, c⟩ := arg
  rcases t <;> rcases l <;> rcases s <;> rcases c <;> rfl
· intro db i t'
  simp [update, buildUpdateAssigns, applyAssign]

/-- C6: create inserts exactly one row at the end of the table, carrying
the given title and link and the clock reading as checked_at; the insert
statement writes neither the status column, which the schema defaults to
subscribed, nor the id column, which the store assigns; the call returns 1
affected row. -/
theorem create_semantics (db : DB) (arg : FeedToCreate) (now : Int) :
    create db arg now =
      (Outcome.ok 1,
       { rows := db.rows ++ [{ id := db.nextId, title := arg.title,
                               link := arg.link, status := "subscribed",
                               checked_at := now }],
         nextId := db.nextId + 1 }) ∧
    (createCols.contains Col.status = false ∧
     createCols.contains Col.id = false) ∧
    (create db arg now).2.rows.length = db.rows.length + 1 := by
refine ⟨rfl, ⟨by decide, by decide⟩, ?_⟩
simp [create]

/-- C10: no SET assignment the update builder can produce writes the id
column, and the list of stored ids is invariant under update, on the error
path as well as on the success path. -/
theorem update_id_invariant :
    (∀ arg : FeedToUpdate,
      ((buildUpdateAssigns arg).all fun a => !(a.col == Col.id)) = true) ∧
    (∀ (db : DB) (arg : FeedToUpdate),
      (update db arg).2.rows.map Row.id = db.rows.map Row.id) := by
constructor
· intro arg
  obtain ⟨i, t, l, s, c⟩ := arg
  rcases t <;> rcases l <;> rcases s <;> rcases c <;> rfl
· intro db arg
  by_cases h : buildUpdateAssigns arg = []
  · simp [update, h]
  · simp only [update, h, if_false]
    rw [List.map_map]
    apply List.map_congr_left
    intro a _
    simp only [Function.comp]
    by_cases hid : (a.id == arg.id) = true
    · simp [hid, foldl_applyAssign_id]
    · simp [hid]

/-- C8 counterexample: an update whose id matches no stored row but whose
optional fields are all absent still builds an empty SET list, so the call
returns a typed store error rather than a success with 0 affected rows;
the claim quantifies over every choice of optional fields and fails here. -/
theorem update_missing_id_empty_fields_cex :
    (update ⟨[], 1⟩ ⟨999, none, none, none, none⟩).1 = Outcome.storeErr ∧
    (Outcome.storeErr : Outcome Nat) ≠ Outcome.ok 0 :=
⟨rfl, by decide⟩

/-- C8 amended: for every FeedToUpdate with at least one optional field
present, if the id matches no stored row then update returns 0 affected
rows, raises no error, and leaves the store unchanged. -/
theorem update_missing_id_nonempty (db : DB) (arg : FeedToUpdate)
    (hne : buildUpdateAssigns arg ≠ [])
    (hmiss : ∀ r ∈ db.rows, r.id ≠ arg.id) :
    update db arg = (Outcome.ok 0, db) := by
have h1 : (db.rows.countP fun r => r.id == arg.id) = 0 :=
  List.countP_eq_zero.mpr fun a ha => by simp [hmiss a ha]
have h2 : (db.rows.map fun r =>
    if r.id == arg.id then (buildUpdateAssigns arg).foldl applyAssign r
    else r) = db.rows := by
  conv_rhs => rw [← List.map_id db.rows]
  apply List.map_congr_left
  intro a ha
  simp [hmiss a ha]
simp only [update]
rw [if_neg hne, h1, h2]

/-- C8 witness: the amended theorem applied at a store holding one row with
id 1 and an update of the missing id 999 that supplies a title. -/
theorem update_missing_id_nonempty_witness :
    buildUpdateAssigns ⟨999, some "x", none, none, none⟩ ≠ [] ∧
    update ⟨[⟨1, "a", "b", "subscribed", 0⟩], 2⟩
        ⟨999, some "x", none, none, none⟩ =
      (Outcome.ok 0, ⟨[⟨1, "a", "b", "subscribed", 0⟩], 2⟩) :=
⟨by decide,
 update_missing_id_nonempty ⟨[⟨1, "a", "b", "subscribed", 0⟩], 2⟩
   ⟨999, some "x", none, none, none⟩ (by decide) (by decide)⟩

/-- C2 counterexample: a store holding one row whose status column was
mutated to the unknown text oops.  Both read_all and read of that id end
in a crash, the Rust panic raised by the unwrap inside the row mapper, not
in a typed error result, so the claim that a typed error is returned to
the caller fails on this store. -/
theorem read_unknown_status_crash_cex :
    read_all ⟨[⟨2, "t", "l", "oops", 0⟩], 3⟩ = Outcome.crash ∧
    read ⟨[⟨2, "t", "l", "oops", 0⟩], 3⟩ 2 = Outcome.crash ∧
    (Outcome.crash : Outcome (List Feed)) ≠ Outcome.storeErr :=
⟨rfl, rfl, by decide⟩

/-- C2 amended: whenever some stored row carries a status outside the two
known spellings, read_all crashes with the panic of the unwrap in the row
mapper, and read of that row likewise crashes when the id selects it;
neither failure reaches the caller as a typed error result. -/
theorem read_unknown_status_crashes (db : DB) :
    ((∃ r ∈ db.rows, FeedStatus.fromStr r.status = none) →
      read_all db = Outcome.crash) ∧
    (∀ (i : Int) (r : Row), r ∈ db.rows → r.id = i →
      (db.rows.map Row.id).Nodup → FeedStatus.fromStr r.status = none →
      read db i = Outcome.crash) := by
constructor
· rintro ⟨r, hmem, hbad⟩
  exact readRows_crash hmem (by simp [Feed.fromRow?, hbad])
· intro i r hmem hid hnd hbad
  rw [read, find_id_unique hnd hmem hid]
  simp [Feed.fromRow?, hbad]

/-- C2 amended witness: the crash theorem applied at a concrete store with
one row whose status is the unknown text bogus. -/
theorem read_unknown_status_crashes_witness :
    read_all ⟨[⟨1, "t", "l", "bogus", 0⟩], 2⟩ = Outcome.crash ∧
    read ⟨[⟨1, "t", "l", "bogus", 0⟩], 2⟩ 1 = Outcome.crash :=
⟨(read_unknown_status_crashes ⟨[⟨1, "t", "l", "bogus", 0⟩], 2⟩).1
   ⟨⟨1, "t", "l", "bogus", 0⟩, by decide, by decide⟩,
 (read_unknown_status_crashes ⟨[⟨1, "t", "l", "bogus", 0⟩], 2⟩).2 1
   ⟨1, "t", "l", "bogus", 0⟩ (by decide) rfl (by decide) (by decide)⟩

/-- C7: read selects at most one row.  When no stored row carries the id,
the result is Ok(None) and no error is raised; when a stored row carries
the id, the ids are pairwise distinct, and its status parses, the result
is that row mapped to its Feed, wrapped as present. -/
theorem read_one_semantics (db : DB) (i : Int) :
    ((∀ r ∈ db.rows, r.id ≠ i) → read db i = Outcome.ok none) ∧
    (∀ r ∈ db.rows, r.id = i → (db.rows.map Row.id).Nodup →
      ∀ st, FeedStatus.fromStr r.status = some st →
        read db i =
          Outcome.ok (some ⟨r.id, r.title, r.link, st, r.checked_at⟩)) := by
constructor
· intro h
  rw [read]
  have hnone : db.rows.find? (fun r => r.id == i) = none :=
    List.find?_eq_none.mpr fun x hx => by simp [h x hx]
  rw [hnone]
· intro r hmem hid hnd st hst
  rw [read, find_id_unique hnd hmem hid]
  simp [Feed.fromRow?, hst]

/-- C7 witness: the read theorem applied at a one-row store, on the present
branch at the stored id. -/
theorem read_one_semantics_witness :
    read ⟨[⟨1, "t", "l", "subscribed", 5⟩], 2⟩ 1 =
      Outcome.ok (some ⟨1, "t", "l", FeedStatus.Subscribed, 5⟩) :=
(read_one_semantics ⟨[⟨1, "t", "l", "subscribed", 5⟩], 2⟩ 1).2
  ⟨1, "t", "l", "subscribed", 5⟩ (by decide) rfl (by decide)
  FeedStatus.Subscribed (by decide)

/-- C9: with pairwise distinct stored ids, delete returns 0 or 1 affected
rows; when a row with the id exists, the first delete returns 1, an
immediately repeated delete returns 0, and a subsequent read of the id is
absent without error. -/
theorem delete_semantics (db : DB) (i : Int)
    (hnd : (db.rows.map Row.id).Nodup) :
    ((delete db i).1 = Outcome.ok 0 ∨ (delete db i).1 = Outcome.ok 1) ∧
    ((∃ r ∈ db.rows, r.id = i) →
      (delete db i).1 = Outcome.ok 1 ∧
      (delete (delete db i).2 i).1 = Outcome.ok 0 ∧
      read (delete db i).2 i = Outcome.ok none) := by
have hle : (db.rows.countP fun r => r.id == i) ≤ 1 := by
  rw [countP_id_eq_count]
  exact List.nodup_iff_count_le_one.mp hnd i
have hzero : ((db.rows.filter fun r => !(r.id == i)).countP
    fun r => r.id == i) = 0 := by
  apply List.countP_eq_zero.mpr
  intro a ha
  have hfa := (List.mem_filter.mp ha).2
  simpa using hfa
constructor
· rcases Nat.lt_or_ge (db.rows.countP fun r => r.id == i) 1 with h | h
  · exact Or.inl (congrArg Outcome.ok (Nat.lt_one_iff.mp h))
  · exact Or.inr (congrArg Outcome.ok (le_antisymm hle h))
· rintro ⟨r, hmem, hid⟩
  have hpos : 0 < (db.rows.countP fun r => r.id == i) :=
    List.countP_pos_iff.mpr ⟨r, hmem, by simp [hid]⟩
  refine ⟨congrArg Outcome.ok (le_antisymm hle hpos),
    congrArg Outcome.ok hzero, ?_⟩
  rw [read]
  have hnone : ((delete db i).2.rows.find? fun x => x.id == i) = none := by
    apply List.find?_eq_none.mpr
    intro x hx
    have hx' : x ∈ db.rows.filter (fun r => !(r.id == i)) := hx
    have hfx := (List.mem_filter.mp hx').2
    simpa using hfx
  rw [hnone]

/-- C9 witness: the delete theorem applied at a one-row store holding id 7,
on the existence branch. -/
theorem delete_semantics_witness :
    (delete ⟨[⟨7, "t", "l", "subscribed", 0⟩], 8⟩ 7).1 = Outcome.ok 1 ∧
    (delete (delete ⟨[⟨7, "t", "l", "subscribed", 0⟩], 8⟩ 7).2 7).1 =
      Outcome.ok 0 ∧
    read (delete ⟨[⟨7, "t", "l", "subscribed", 0⟩], 8⟩ 7).2 7 =
      Outcome.ok none :=
(delete_semantics ⟨[⟨7, "t", "l", "subscribed", 0⟩], 8⟩ 7 (by decide)).2
  ⟨⟨7, "t", "l", "subscribed", 0⟩, by decide, rfl⟩

end Collie
